import Mathlib

/-!
Verification development for the Dynamic Window Approach planner
(`PathPlanning/DynamicWindowApproach/dwa_3d.py` and
`PathPlanning/DynamicWindowApproach/dwa_flocking.py`).

Numbers are embedded as exact rationals.  The floating-point library
functions `math.cos`, `math.sin`, `math.atan2` and the Euclidean norm
`np.hypot` are kept abstract: every definition is parametrised over a
`MathOps` record supplying them, so all theorems hold for any
interpretation of the transcendental functions, and concrete theorems
instantiate them with simple computable functions.

Fallible operations (out-of-range indexing, `np.min` of an empty array)
are embedded with `Option` / an explicit error constructor: `none`
(resp. `.err`) models a raised Python exception.
-/

/-- Abstract interface for the float math functions used by the planner. -/
structure MathOps where
  cos : ℚ → ℚ
  sin : ℚ → ℚ
  atan2 : ℚ → ℚ → ℚ
  hypot : ℚ → ℚ → ℚ

/-- The numeric fields of the `Config` class (identical in both files).
`robot_type` and the rectangle dimensions are used only by the excluded
rendering code; the obstacle array is passed around explicitly as the
functions receive it. -/
structure Config where
  max_speed : ℚ
  min_speed : ℚ
  max_yaw_rate : ℚ
  max_accel : ℚ
  max_delta_yaw_rate : ℚ
  v_resolution : ℚ
  yaw_rate_resolution : ℚ
  dt : ℚ
  predict_time : ℚ
  to_goal_cost_gain : ℚ
  speed_cost_gain : ℚ
  obstacle_cost_gain : ℚ
  robot_stuck_flag_cons : ℚ
  robot_radius : ℚ
deriving DecidableEq

/-- `np.arange(a, b, step)`: the list `a, a+step, ...` of length
`max 0 ⌈(b-a)/step⌉`.  (For `step = 0`, where numpy raises, rational
division by zero makes the list empty; no claim exercises that case.) -/
def arange (a b step : ℚ) : List ℚ :=
  (List.range (Int.toNat ⌈(b - a) / step⌉)).map fun i => a + (i : ℚ) * step

/-- A float cost value: either `inf` or a finite rational. -/
inductive Cost where
  | inf : Cost
  | fin (q : ℚ) : Cost
deriving DecidableEq

/-- Python's `min_cost >= final_cost` on floats (where `inf >= inf` is true). -/
def Cost.geb : Cost → Cost → Bool
  | .inf, _ => true
  | .fin _, .inf => false
  | .fin a, .fin b => decide (b ≤ a)

/-- Outcome of `calc_obstacle_cost`: a raised exception (`np.min` of an
empty distance matrix), `float("Inf")`, or a finite value. -/
inductive ObCost where
  | err : ObCost
  | inf : ObCost
  | val (q : ℚ) : ObCost
deriving DecidableEq

/-- `config.obstacle_cost_gain * calc_obstacle_cost(...)`: scaling by the
(positive) gain; `inf` and a raised exception are unaffected. -/
def ObCost.scale (g : ℚ) : ObCost → ObCost
  | .err => .err
  | .inf => .inf
  | .val q => .val (g * q)

/-- The entries of the distance matrix `r = np.hypot(dx, dy)` of
`calc_obstacle_cost`: one distance per (obstacle point, trajectory sample)
pair. -/
def obstacleDists (ops : MathOps) (pts ob : List (ℚ × ℚ)) : List ℚ :=
  ob.flatMap fun o => pts.map fun p => ops.hypot (p.1 - o.1) (p.2 - o.2)

/-- Core of `calc_obstacle_cost` (identical in both files), acting on the
sample positions `trajectory[:, 0], trajectory[:, 1]` and the obstacle
points: `inf` if any distance is `<= robot_radius`, otherwise the
reciprocal of `np.min(r)` — which raises (`.err`) when `r` is empty. -/
def obstacleCore (ops : MathOps) (pts ob : List (ℚ × ℚ)) (radius : ℚ) : ObCost :=
  if (obstacleDists ops pts ob).any fun d => decide (d ≤ radius) then .inf
  else
    match obstacleDists ops pts ob with
    | [] => .err
    | d :: ds => .val (1 / ds.foldl min d)

namespace Dwa3d

/-- Assignment `l[i] = v` on a numpy row: raises (`none`) when out of range. -/
def setQ (l : List ℚ) (i : Nat) (v : ℚ) : Option (List ℚ) :=
  if i < l.length then some (l.set i v) else none

/-- `motion` of dwa_3d.py (lines 115-128).  The state row is a plain list;
reads and writes are bounds-checked exactly as numpy indexing is.  Note the
reads of `u[2]` and writes to `x[5]`, `x[6]`. -/
def motion (ops : MathOps) (x u : List ℚ) (dt : ℚ) : Option (List ℚ) := do
  let x3 ← x.get? 3
  let u1 ← u.get? 1
  let x ← setQ x 3 (x3 + u1 * dt)          -- x[3] += u[1] * dt  (angle)
  let x0 ← x.get? 0
  let u0 ← u.get? 0
  let x3' ← x.get? 3
  let x ← setQ x 0 (x0 + u0 * ops.cos x3' * dt)  -- x[0] += u[0]*cos(x[3])*dt
  let x1 ← x.get? 1
  let x ← setQ x 1 (x1 + u0 * ops.sin x3' * dt)  -- x[1] += u[0]*sin(x[3])*dt
  let x ← setQ x 2 1                        -- x[2] = 1  (z axis)
  let x ← setQ x 4 u0                       -- x[4] = u[0]  (velocity)
  let x ← setQ x 5 u1                       -- x[5] = u[1]  (angular velocity)
  let u2 ← u.get? 2
  setQ x 6 u2                               -- x[6] = u[2]  (altitude velocity)

/-- `calc_dynamic_window` of dwa_3d.py (lines 131-150): component-wise
intersection of the static rectangle `Vs` with the reachable rectangle `Vd`
built from `x[4]`, `x[5]`. -/
def calc_dynamic_window (x : List ℚ) (cfg : Config) : Option (ℚ × ℚ × ℚ × ℚ) := do
  let v ← x.get? 4
  let w ← x.get? 5
  pure (max cfg.min_speed (v - cfg.max_accel * cfg.dt),
        min cfg.max_speed (v + cfg.max_accel * cfg.dt),
        max (-cfg.max_yaw_rate) (w - cfg.max_delta_yaw_rate * cfg.dt),
        min cfg.max_yaw_rate (w + cfg.max_delta_yaw_rate * cfg.dt))

/-- Fuel bound for the `while time <= config.predict_time` loop: with
`0 < dt` and `0 ≤ predict_time` the loop runs `⌊predict_time/dt⌋ + 1`
times, so this fuel is never exhausted. -/
def predictFuel (cfg : Config) : Nat := (⌊cfg.predict_time / cfg.dt⌋ + 2).toNat

/-- The loop of `predict_trajectory` (lines 160-164): accumulates the state
after each tick, advancing `time` by `dt`, while `time <= predict_time`. -/
def predictGo (ops : MathOps) (cfg : Config) (v y : ℚ) :
    Nat → List ℚ → ℚ → Option (List (List ℚ))
  | 0, _, _ => some []
  | fuel + 1, x, time =>
    if time ≤ cfg.predict_time then do
      let x' ← motion ops x [v, y] cfg.dt
      let rest ← predictGo ops cfg v y fuel x' (time + cfg.dt)
      pure (x' :: rest)
    else some []

/-- `predict_trajectory` of dwa_3d.py (lines 153-166): the initial state
followed by the simulated ticks.  Note the motion model receives the
2-element command `[v, y]`. -/
def predict_trajectory (ops : MathOps) (cfg : Config) (xinit : List ℚ) (v y : ℚ) :
    Option (List (List ℚ)) := do
  let tl ← predictGo ops cfg v y (predictFuel cfg) xinit 0
  pure (xinit :: tl)

/-- Column extraction `trajectory[:, 0], trajectory[:, 1]`: the (x, y)
position of every row, bounds-checked. -/
def rowsPos : List (List ℚ) → Option (List (ℚ × ℚ))
  | [] => some []
  | r :: rs =>
    match r.get? 0, r.get? 1, rowsPos rs with
    | some a, some b, some rest => some ((a, b) :: rest)
    | _, _, _ => none

/-- `calc_obstacle_cost` of dwa_3d.py (lines 206-220). -/
def calc_obstacle_cost (ops : MathOps) (traj : List (List ℚ)) (ob : List (ℚ × ℚ))
    (cfg : Config) : Option ObCost := do
  let pts ← rowsPos traj
  pure (obstacleCore ops pts ob cfg.robot_radius)

/-- `calc_to_goal_cost` of dwa_3d.py (lines 223-234): reads
`trajectory[-1, 0]`, `trajectory[-1, 1]` and — as the heading —
`trajectory[-1, 2]`. -/
def calc_to_goal_cost (ops : MathOps) (traj : List (List ℚ)) (goal : ℚ × ℚ) :
    Option ℚ := do
  let last ← traj.getLast?
  let lx ← last.get? 0
  let ly ← last.get? 1
  let lh ← last.get? 2
  let e := ops.atan2 (goal.2 - ly) (goal.1 - lx)
  let c := e - lh
  pure |ops.atan2 (ops.sin c) (ops.cos c)|

/-- The three cost terms of one candidate (lines 185-189); the speed cost
reads `trajectory[-1, 3]` as the final velocity. -/
def finalCost (ops : MathOps) (cfg : Config) (goal : ℚ × ℚ) (ob : List (ℚ × ℚ))
    (traj : List (List ℚ)) : Option Cost := do
  let tg ← calc_to_goal_cost ops traj goal
  let last ← traj.getLast?
  let lv ← last.get? 3
  let obc ← calc_obstacle_cost ops traj ob cfg
  let base := cfg.to_goal_cost_gain * tg + cfg.speed_cost_gain * (cfg.max_speed - lv)
  match obc.scale cfg.obstacle_cost_gain with
  | .err => none
  | .inf => pure Cost.inf
  | .val q => pure (Cost.fin (base + q))

/-- The running best of the candidate search (lines 175-177). -/
structure BestSt where
  min_cost : Cost
  best_u : ℚ × ℚ
  best_trajectory : List (List ℚ)
deriving DecidableEq

/-- One iteration of the candidate loop (lines 183-202): simulate, score,
update the best on `min_cost >= final_cost`, then apply the anti-stall
override when both the chosen and the current velocity are below
`robot_stuck_flag_cons`. -/
def searchStep (ops : MathOps) (cfg : Config) (x : List ℚ) (goal : ℚ × ℚ)
    (ob : List (ℚ × ℚ)) (st : BestSt) (vy : ℚ × ℚ) : Option BestSt :=
  match predict_trajectory ops cfg x vy.1 vy.2 with
  | none => none
  | some traj =>
    match finalCost ops cfg goal ob traj with
    | none => none
    | some fc =>
      if st.min_cost.geb fc then
        match x.get? 4 with
        | none => none
        | some xv =>
          some ⟨fc,
            if |vy.1| < cfg.robot_stuck_flag_cons ∧ |xv| < cfg.robot_stuck_flag_cons
            then (vy.1, -cfg.max_delta_yaw_rate) else vy,
            traj⟩
      else some st

/-- The candidate grid enumerated by the two nested `np.arange` loops
(lines 180-181) over the window `dw = (v_min, v_max, yaw_min, yaw_max)`. -/
def gridCands (cfg : Config) (dw : ℚ × ℚ × ℚ × ℚ) : List (ℚ × ℚ) :=
  (arange dw.1 dw.2.1 cfg.v_resolution).flatMap fun v =>
    (arange dw.2.2.1 dw.2.2.2 cfg.yaw_rate_resolution).map fun y => (v, y)

/-- `calc_control_and_trajectory` of dwa_3d.py (lines 169-203): fold the
candidate loop from the defaults `best_u = [0.0, 0.0]`,
`best_trajectory = [x]`. -/
def calc_control_and_trajectory (ops : MathOps) (cfg : Config) (x : List ℚ)
    (dw : ℚ × ℚ × ℚ × ℚ) (goal : ℚ × ℚ) (ob : List (ℚ × ℚ)) :
    Option ((ℚ × ℚ) × List (List ℚ)) := do
  let st ← (gridCands cfg dw).foldlM (searchStep ops cfg x goal ob)
    ⟨Cost.inf, (0, 0), [x]⟩
  pure (st.best_u, st.best_trajectory)

end Dwa3d

namespace Flocking

/-- One agent's state row `[x, y, yaw, v, omega]` of dwa_flocking.py.
The flocking file indexes rows only with the literal columns 0..4, always
in bounds, so the row is embedded as a record (column 2 is the heading,
column 3 the linear velocity, column 4 the angular velocity). -/
structure AgState where
  x : ℚ
  y : ℚ
  yaw : ℚ
  v : ℚ
  omega : ℚ
deriving DecidableEq

/-- The 6-agent state matrix (`x` has exactly 6 rows; every loop is
`for n in range(6)`). -/
abbrev M := Fin 6 → AgState

/-- The rows of the matrix in order: the rows `np.vstack` appends. -/
def rowsOf (x : M) : List AgState := (List.finRange 6).map x

/-- `motion` of dwa_flocking.py (lines 91-101): updates row `n` in place
from the 2-element command `u = [v, y]`. -/
def motion (ops : MathOps) (x : M) (n : Fin 6) (u : ℚ × ℚ) (dt : ℚ) : M :=
  let s := x n
  let yaw' := s.yaw + u.2 * dt                 -- x[n,2] += u[1] * dt
  let s' : AgState :=
    { x := s.x + u.1 * ops.cos yaw' * dt,      -- x[n,0] += u[0]*cos(x[n,2])*dt
      y := s.y + u.1 * ops.sin yaw' * dt,      -- x[n,1] += u[0]*sin(x[n,2])*dt
      yaw := yaw',
      v := u.1,                                -- x[n,3] = u[0]
      omega := u.2 }                           -- x[n,4] = u[1]
  Function.update x n s'

/-- `calc_dynamic_window` of dwa_flocking.py (lines 104-152): the same
static rectangle `Vs` for each of the 6 agents, intersected with each
agent's reachable rectangle `Vd` built from `x[i,3]`, `x[i,4]`. -/
def calc_dynamic_window (x : M) (cfg : Config) : Fin 6 → ℚ × ℚ × ℚ × ℚ := fun i =>
  (max cfg.min_speed ((x i).v - cfg.max_accel * cfg.dt),
   min cfg.max_speed ((x i).v + cfg.max_accel * cfg.dt),
   max (-cfg.max_yaw_rate) ((x i).omega - cfg.max_delta_yaw_rate * cfg.dt),
   min cfg.max_yaw_rate ((x i).omega + cfg.max_delta_yaw_rate * cfg.dt))

/-- The `while time <= config.predict_time` loop of `predict_trajectory`
(lines 162-166): each iteration advances row `n` one tick and `np.vstack`s
all 6 rows of the whole matrix onto the trajectory. -/
def predictGo (ops : MathOps) (cfg : Config) (n : Fin 6) (v y : ℚ) :
    Nat → M → ℚ → List AgState
  | 0, _, _ => []
  | fuel + 1, x, time =>
    if time ≤ cfg.predict_time then
      let x' := motion ops x n (v, y) cfg.dt
      rowsOf x' ++ predictGo ops cfg n v y fuel x' (time + cfg.dt)
    else []

/-- `predict_trajectory` of dwa_flocking.py (lines 155-168): the 6 initial
rows followed by the 6 rows of the matrix after each simulated tick.  The
fuel `(⌊predict_time/dt⌋ + 2).toNat` strictly exceeds the number of loop
iterations whenever `0 < dt` and `0 ≤ predict_time`. -/
def predict_trajectory (ops : MathOps) (cfg : Config) (x : M) (n : Fin 6)
    (v y : ℚ) : List AgState :=
  rowsOf x ++ predictGo ops cfg n v y ((⌊cfg.predict_time / cfg.dt⌋ + 2).toNat) x 0

/-- `calc_obstacle_cost` of dwa_flocking.py (lines 215-229), on the
positions `trajectory[:, 0], trajectory[:, 1]` of every stacked row. -/
def calc_obstacle_cost (ops : MathOps) (traj : List AgState) (ob : List (ℚ × ℚ))
    (cfg : Config) : ObCost :=
  obstacleCore ops (traj.map fun s => (s.x, s.y)) ob cfg.robot_radius

/-- `calc_to_goal_cost` of dwa_flocking.py (lines 232-243): reads the last
stacked row `trajectory[-1]` (raises on an empty trajectory, which cannot
occur since the trajectory starts with the 6 initial rows). -/
def calc_to_goal_cost (ops : MathOps) (traj : List AgState) (goal : ℚ × ℚ) :
    Option ℚ := do
  let last ← traj.getLast?
  let e := ops.atan2 (goal.2 - last.y) (goal.1 - last.x)
  let c := e - last.yaw
  pure |ops.atan2 (ops.sin c) (ops.cos c)|

/-- The three cost terms of one candidate (lines 194-198); the speed cost
reads `trajectory[-1, 3]`, i.e. the `v` field of the last stacked row. -/
def finalCost (ops : MathOps) (cfg : Config) (goal : ℚ × ℚ) (ob : List (ℚ × ℚ))
    (traj : List AgState) : Option Cost := do
  let tg ← calc_to_goal_cost ops traj goal
  let last ← traj.getLast?
  let base := cfg.to_goal_cost_gain * tg + cfg.speed_cost_gain * (cfg.max_speed - last.v)
  match (calc_obstacle_cost ops traj ob cfg).scale cfg.obstacle_cost_gain with
  | .err => none
  | .inf => pure Cost.inf
  | .val q => pure (Cost.fin (base + q))

/-- The search state: the single shared `min_cost`, the 6-entry `best_u`
array (initialised to six `[0.0, 0.0]` pairs, lines 177-185) and the single
shared `best_trajectory` (initialised to `np.array([x])`, the 6 current
rows). -/
structure SearchSt where
  min_cost : Cost
  best_u : Fin 6 → ℚ × ℚ
  best_trajectory : List AgState

/-- One iteration of the candidate loops (lines 191-211) for candidate
`(v, y)` of agent `n`: simulate, score, update on `min_cost >= final_cost`
(writing `best_u[n]`), then the anti-stall override on `best_u[n][1]` when
`|best_u[n][0]|` and `|x[n,3]|` are both below `robot_stuck_flag_cons`. -/
def searchStep (ops : MathOps) (cfg : Config) (x : M) (goal : ℚ × ℚ)
    (ob : List (ℚ × ℚ)) (st : SearchSt) (c : Fin 6 × ℚ × ℚ) : Option SearchSt :=
  let traj := predict_trajectory ops cfg x c.1 c.2.1 c.2.2
  match finalCost ops cfg goal ob traj with
  | none => none
  | some fc =>
    if st.min_cost.geb fc then
      some ⟨fc,
        Function.update st.best_u c.1
          (if |c.2.1| < cfg.robot_stuck_flag_cons ∧ |(x c.1).v| < cfg.robot_stuck_flag_cons
           then (c.2.1, -cfg.max_delta_yaw_rate) else c.2),
        traj⟩
    else some st

/-- The candidates enumerated by the three nested loops (lines 188-190):
for each agent `n` in order, the `np.arange` grid of its own window. -/
def gridCands (cfg : Config) (dw : Fin 6 → ℚ × ℚ × ℚ × ℚ) : List (Fin 6 × ℚ × ℚ) :=
  (List.finRange 6).flatMap fun n =>
    (arange (dw n).1 (dw n).2.1 cfg.v_resolution).flatMap fun v =>
      (arange (dw n).2.2.1 (dw n).2.2.2 cfg.yaw_rate_resolution).map fun y => (n, v, y)

/-- `calc_control_and_trajectory` of dwa_flocking.py (lines 171-212). -/
def calc_control_and_trajectory (ops : MathOps) (cfg : Config) (x : M)
    (dw : Fin 6 → ℚ × ℚ × ℚ × ℚ) (goal : ℚ × ℚ) (ob : List (ℚ × ℚ)) :
    Option ((Fin 6 → ℚ × ℚ) × List AgState) := do
  let st ← (gridCands cfg dw).foldlM (searchStep ops cfg x goal ob)
    ⟨Cost.inf, fun _ => (0, 0), rowsOf x⟩
  pure (st.best_u, st.best_trajectory)

/-- `dwa_control` of dwa_flocking.py (lines 19-27). -/
def dwa_control (ops : MathOps) (cfg : Config) (x : M) (goal : ℚ × ℚ)
    (ob : List (ℚ × ℚ)) : Option ((Fin 6 → ℚ × ℚ) × List AgState) :=
  calc_control_and_trajectory ops cfg x (calc_dynamic_window x cfg) goal ob

end Flocking

namespace Flocking

/-- The body of the goal-1 `while True:` loop of `main` in dwa_flocking.py
(lines 298-327): one `dwa_control` call, then `for n in range(6): x =
motion(x, n, u[n], dt)`, then the per-agent goal-reached scan whose `break`
exits only the `for` loop (the source merely prints `"Goal!!"`); the
computed first reached agent therefore has no effect on the loop. -/
def goal1Iter (ops : MathOps) (cfg : Config) (goal1 : ℚ × ℚ) (ob : List (ℚ × ℚ))
    (x : M) : Option M := do
  let r ← dwa_control ops cfg x goal1 ob
  let u := r.1
  let x := (List.finRange 6).foldl (fun x n => motion ops x n (u n) cfg.dt) x
  let _reached := (List.finRange 6).find? fun n =>
    decide (ops.hypot ((x n).x - goal1.1) ((x n).y - goal1.2) ≤ cfg.robot_radius)
  pure x

/-- The goal-1 `while True:` loop itself, run for `fuel` iterations:
`none` means the loop is still running (or an iteration raised); a `some`
result would mean the loop exited normally.  The source contains no
`break` or `return` for this `while`, so there is no exit case. -/
def runGoal1 (ops : MathOps) (cfg : Config) (goal1 : ℚ × ℚ) (ob : List (ℚ × ℚ)) :
    Nat → M → Option M
  | 0, _ => none
  | fuel + 1, x =>
    match goal1Iter ops cfg goal1 ob x with
    | none => none
    | some x' => runGoal1 ops cfg goal1 ob fuel x'

end Flocking

namespace SpecDWA

/-- Specification-side model of the single-agent planner, used only as the
comparison point of the refinement claim about the multi-agent variant.
It follows the spec's Sections 4.1-4.4 on one 5-field RobotState. -/
def motion (ops : MathOps) (cfg : Config) (s : Flocking.AgState) (v y : ℚ) :
    Flocking.AgState :=
  let yaw' := s.yaw + y * cfg.dt
  { x := s.x + v * ops.cos yaw' * cfg.dt,
    y := s.y + v * ops.sin yaw' * cfg.dt,
    yaw := yaw',
    v := v,
    omega := y }

/-- Spec model: the `k` simulated tick states after the initial state. -/
def ticks (ops : MathOps) (cfg : Config) (v y : ℚ) :
    Nat → Flocking.AgState → List Flocking.AgState
  | 0, _ => []
  | k + 1, s =>
    let s' := motion ops cfg s v y
    s' :: ticks ops cfg v y k s'

/-- Spec model (Section 4.2): `ceil(horizon/time_step)+1` samples, the
first being the initial state. -/
def predict (ops : MathOps) (cfg : Config) (s : Flocking.AgState) (v y : ℚ) :
    List Flocking.AgState :=
  s :: ticks ops cfg v y (Int.toNat ⌈cfg.predict_time / cfg.dt⌉) s

/-- Spec model (Section 4.3): obstacle term over the agent's own samples;
an empty obstacle set contributes 0. -/
def obCost (ops : MathOps) (pts ob : List (ℚ × ℚ)) (radius : ℚ) : Cost :=
  let r := obstacleDists ops pts ob
  if r.any fun d => decide (d ≤ radius) then .inf
  else
    match r with
    | [] => .fin 0
    | d :: ds => .fin (1 / ds.foldl min d)

/-- Spec model (Section 4.3): the weighted three-term cost of one
candidate trajectory of the agent itself. -/
def cost (ops : MathOps) (cfg : Config) (goal : ℚ × ℚ) (ob : List (ℚ × ℚ))
    (traj : List Flocking.AgState) (s : Flocking.AgState) : Cost :=
  let f := traj.getLastD s
  let e := ops.atan2 (goal.2 - f.y) (goal.1 - f.x)
  let c := e - f.yaw
  let tg := |ops.atan2 (ops.sin c) (ops.cos c)|
  let base := cfg.to_goal_cost_gain * tg + cfg.speed_cost_gain * (cfg.max_speed - f.v)
  match obCost ops (traj.map fun p => (p.x, p.y)) ob cfg.robot_radius with
  | .inf => Cost.inf
  | .fin q => Cost.fin (base + cfg.obstacle_cost_gain * q)

/-- Spec model (Sections 4.1 and 4.4): dynamic window, full grid scan with
the `min_cost >= final_cost` update rule, then the anti-stall override
applied to the selected command. -/
def search (ops : MathOps) (cfg : Config) (s : Flocking.AgState) (goal : ℚ × ℚ)
    (ob : List (ℚ × ℚ)) : (ℚ × ℚ) × List Flocking.AgState :=
  let dw := (max cfg.min_speed (s.v - cfg.max_accel * cfg.dt),
             min cfg.max_speed (s.v + cfg.max_accel * cfg.dt),
             max (-cfg.max_yaw_rate) (s.omega - cfg.max_delta_yaw_rate * cfg.dt),
             min cfg.max_yaw_rate (s.omega + cfg.max_delta_yaw_rate * cfg.dt))
  let cands := (arange dw.1 dw.2.1 cfg.v_resolution).flatMap fun v =>
    (arange dw.2.2.1 dw.2.2.2 cfg.yaw_rate_resolution).map fun y => (v, y)
  let sel := cands.foldl (fun st vy =>
    let traj := predict ops cfg s vy.1 vy.2
    let fc := cost ops cfg goal ob traj s
    if st.1.geb fc then (fc, vy, traj) else st)
    (Cost.inf, ((0 : ℚ), (0 : ℚ)), [s])
  let u := sel.2.1
  let u := if |u.1| < cfg.robot_stuck_flag_cons ∧ |s.v| < cfg.robot_stuck_flag_cons
           then (u.1, -cfg.max_delta_yaw_rate) else u
  (u, sel.2.2)

end SpecDWA

/-! ### Concrete instances used by the closed theorems -/

/-- A concrete interpretation of the abstract math functions, used to
instantiate closed theorems: `cos := 1`, `sin := 0`, `atan2 := 0` and the
taxicab norm for `hypot`. -/
def opsT : MathOps :=
  { cos := fun _ => 1, sin := fun _ => 0, atan2 := fun _ _ => 0,
    hypot := fun a b => |a| + |b| }

/-- A concrete valid configuration (`dt = 1`, `predict_time = 0`, unit
gains and resolutions, radius `1/2`, anti-stall threshold `1/10000`). -/
def cfgA : Config :=
  { max_speed := 4/5, min_speed := -1/2, max_yaw_rate := 1, max_accel := 1/5,
    max_delta_yaw_rate := 3/10, v_resolution := 1, yaw_rate_resolution := 1,
    dt := 1, predict_time := 0, to_goal_cost_gain := 1, speed_cost_gain := 1,
    obstacle_cost_gain := 1, robot_stuck_flag_cons := 1/10000, robot_radius := 1/2 }

/-- `cfgA` with a one-second horizon (`predict_time = dt = 1`). -/
def cfgB : Config := { cfgA with predict_time := 1 }

/-- A concrete valid configuration with a wider speed range
(`min_speed = 0`, `max_speed = 2`), used for the multi-agent scenarios. -/
def cfgC : Config := { cfgA with min_speed := 0, max_speed := 2 }

/-- The all-zero 7-entry state row of the dwa_3d layout. -/
def x7z : List ℚ := [0, 0, 0, 0, 0, 0, 0]

/-- A 7-entry dwa_3d state row whose current velocity `x[4] = 10` is far
outside the static speed range. -/
def xFast : List ℚ := [0, 0, 0, 0, 10, 0, 0]

/-- Six agents with linear velocity `1/2`; agent 1 sits at `(95, 0)`,
close to the obstacle at `(100, 0)` of `obFar`. -/
def xNear : Flocking.M :=
  ![⟨0, 0, 0, 1/2, 0⟩, ⟨95, 0, 0, 1/2, 0⟩, ⟨0, -10, 0, 1/2, 0⟩,
    ⟨0, -20, 0, 1/2, 0⟩, ⟨0, -30, 0, 1/2, 0⟩, ⟨0, -40, 0, 1/2, 0⟩]

/-- Six stationary agents (`v = 0`, `omega = 1/10`) on the x-axis. -/
def xStall : Flocking.M :=
  ![⟨0, 0, 0, 0, 1/10⟩, ⟨1, 0, 0, 0, 1/10⟩, ⟨2, 0, 0, 0, 1/10⟩,
    ⟨3, 0, 0, 0, 1/10⟩, ⟨4, 0, 0, 0, 1/10⟩, ⟨5, 0, 0, 0, 1/10⟩]

/-- Six all-zero agent rows. -/
def xFz : Flocking.M := fun _ => ⟨0, 0, 0, 0, 0⟩

/-- A single distant obstacle at `(100, 0)`. -/
def obFar : List (ℚ × ℚ) := [(100, 0)]

/-- A single obstacle at `(50, 0)`. -/
def obMid : List (ℚ × ℚ) := [(50, 0)]

/-- An obstacle at the origin (on top of the all-zero state). -/
def obAt0 : List (ℚ × ℚ) := [(0, 0)]

/-- Helper used to state the trajectory-length claim: the number of loop
iterations the `while time <= predict_time` loop still performs when the
running time variable is `t`. -/
def iterCount (cfg : Config) (t : ℚ) : ℕ :=
  if t ≤ cfg.predict_time then (⌊(cfg.predict_time - t) / cfg.dt⌋ + 1).toNat else 0

/-- The anti-stall property preserved by every candidate update: each entry
of `best_u` is either still the initialised `(0, 0)` or, whenever its
velocity and the agent's current velocity are both below the threshold, its
yaw rate was forced to `-max_delta_yaw_rate` at its last update. -/
def StallInv (cfg : Config) (x : Flocking.M) (n : Fin 6) (u : ℚ × ℚ) : Prop :=
  u = (0, 0) ∨
    (|u.1| < cfg.robot_stuck_flag_cons → |(x n).v| < cfg.robot_stuck_flag_cons →
      u.2 = -cfg.max_delta_yaw_rate)

/-! ### Helper lemmas -/

theorem bind_none_of_forall {α β : Type _} (o : Option α) (f : α → Option β)
    (h : ∀ a, f a = none) : o.bind f = none := by
  cases o <;> simp [h]

theorem foldlM_none_cons {α σ : Type _} (f : σ → α → Option σ) (s : σ) (a : α)
    (l : List α) (h : f s a = none) : List.foldlM f s (a :: l) = none := by
  simp [List.foldlM, h]

theorem foldlM_option_inv {α σ : Type _} (f : σ → α → Option σ) (P : σ → Prop)
    (hstep : ∀ s a s', f s a = some s' → P s → P s') :
    ∀ (l : List α) (s s' : σ), List.foldlM f s l = some s' → P s → P s'
  | [], s, s', h, hs => by
    simp [List.foldlM] at h
    exact h ▸ hs
  | a :: l, s, s', h, hs => by
    simp only [List.foldlM] at h
    cases hfa : f s a with
    | none => rw [hfa] at h; simp at h
    | some s₁ =>
      rw [hfa] at h
      exact foldlM_option_inv f P hstep l s₁ s' h (hstep s a s₁ hfa hs)

theorem foldl_min_mem (l : List ℚ) : ∀ r : ℚ, l.foldl min r ∈ r :: l := by
  induction l with
  | nil => intro r; simp
  | cons a l ih =>
    intro r
    rw [List.foldl_cons]
    rcases List.mem_cons.mp (ih (min r a)) with h1 | h1
    · rcases min_choice r a with hm | hm
      · rw [h1, hm]; exact List.mem_cons_self _ _
      · rw [h1, hm]; exact List.mem_cons.mpr (Or.inr (List.mem_cons_self _ _))
    · exact List.mem_cons.mpr (Or.inr (List.mem_cons.mpr (Or.inr h1)))

theorem foldl_min_le_init (l : List ℚ) : ∀ r : ℚ, l.foldl min r ≤ r := by
  induction l with
  | nil => intro r; simp
  | cons a l ih =>
    intro r
    rw [List.foldl_cons]
    exact le_trans (ih (min r a)) (min_le_left r a)

theorem foldl_min_le (l : List ℚ) : ∀ (r d : ℚ), d ∈ r :: l → l.foldl min r ≤ d := by
  induction l with
  | nil =>
    intro r d hd
    simp only [List.mem_singleton] at hd
    simp [hd]
  | cons a l ih =>
    intro r d hd
    rw [List.foldl_cons]
    rcases List.mem_cons.mp hd with h1 | h1
    · subst h1
      exact le_trans (foldl_min_le_init l (min d a)) (min_le_left d a)
    · rcases List.mem_cons.mp h1 with h2 | h2
      · subst h2
        exact le_trans (foldl_min_le_init l (min r d)) (min_le_right r d)
      · exact ih (min r a) d (List.mem_cons.mpr (Or.inr h2))

theorem arange_empty {a b step : ℚ} (hstep : 0 < step) (hba : b ≤ a) :
    arange a b step = [] := by
  have h1 : (b - a) / step ≤ 0 := by
    rw [div_nonpos_iff]
    right
    exact ⟨sub_nonpos.mpr hba, hstep.le⟩
  have h2 : ⌈(b - a) / step⌉ ≤ 0 := Int.ceil_le.mpr (by exact_mod_cast h1)
  have h3 : Int.toNat ⌈(b - a) / step⌉ = 0 := Int.toNat_of_nonpos h2
  simp [arange, h3]

theorem motion_pair_none (ops : MathOps) (x : List ℚ) (v y dt : ℚ) :
    Dwa3d.motion ops x [v, y] dt = none := by
  unfold Dwa3d.motion
  repeat first
    | rfl
    | (apply bind_none_of_forall; intro _)

theorem predict3d_none (ops : MathOps) (cfg : Config) (x : List ℚ) (v y : ℚ)
    (hdt : 0 < cfg.dt) (hT : 0 ≤ cfg.predict_time) :
    Dwa3d.predict_trajectory ops cfg x v y = none := by
  have h0 : 0 ≤ ⌊cfg.predict_time / cfg.dt⌋ :=
    Int.floor_nonneg.mpr (div_nonneg hT hdt.le)
  obtain ⟨k, hk⟩ : ∃ k, Dwa3d.predictFuel cfg = k + 1 := by
    refine ⟨Dwa3d.predictFuel cfg - 1, ?_⟩
    unfold Dwa3d.predictFuel
    omega
  unfold Dwa3d.predict_trajectory
  rw [hk]
  simp only [Dwa3d.predictGo, if_pos hT, motion_pair_none]
  rfl

theorem calc3d_empty_default (ops : MathOps) (cfg : Config) (x : List ℚ)
    (dw : ℚ × ℚ × ℚ × ℚ) (goal : ℚ × ℚ) (ob : List (ℚ × ℚ))
    (h : Dwa3d.gridCands cfg dw = []) :
    Dwa3d.calc_control_and_trajectory ops cfg x dw goal ob = some ((0, 0), [x]) := by
  unfold Dwa3d.calc_control_and_trajectory
  rw [h]
  rfl

theorem calc3d_nonempty_none (ops : MathOps) (cfg : Config) (x : List ℚ)
    (dw : ℚ × ℚ × ℚ × ℚ) (goal : ℚ × ℚ) (ob : List (ℚ × ℚ))
    (hdt : 0 < cfg.dt) (hT : 0 ≤ cfg.predict_time)
    (hne : Dwa3d.gridCands cfg dw ≠ []) :
    Dwa3d.calc_control_and_trajectory ops cfg x dw goal ob = none := by
  obtain ⟨c, l, hcl⟩ : ∃ c l, Dwa3d.gridCands cfg dw = c :: l := by
    cases h : Dwa3d.gridCands cfg dw with
    | nil => exact absurd h hne
    | cons c l => exact ⟨c, l, rfl⟩
  have hstep : Dwa3d.searchStep ops cfg x goal ob ⟨Cost.inf, (0, 0), [x]⟩ c = none := by
    unfold Dwa3d.searchStep
    rw [predict3d_none ops cfg x c.1 c.2 hdt hT]
  unfold Dwa3d.calc_control_and_trajectory
  rw [hcl, foldlM_none_cons _ _ _ _ hstep]
  rfl

theorem gridCands_empty_of_window (cfg : Config) (dw : ℚ × ℚ × ℚ × ℚ)
    (hv : 0 < cfg.v_resolution) (hy : 0 < cfg.yaw_rate_resolution)
    (h : dw.2.1 ≤ dw.1 ∨ dw.2.2.2 ≤ dw.2.2.1) :
    Dwa3d.gridCands cfg dw = [] := by
  unfold Dwa3d.gridCands
  rcases h with h | h
  · rw [arange_empty hv h]
    rfl
  · apply List.flatMap_eq_nil_iff.mpr
    intro v _
    rw [arange_empty hy h]
    rfl

theorem iterCount_succ (cfg : Config) (t : ℚ) (hdt : 0 < cfg.dt)
    (ht : t ≤ cfg.predict_time) :
    iterCount cfg t = iterCount cfg (t + cfg.dt) + 1 := by
  unfold iterCount
  by_cases h2 : t + cfg.dt ≤ cfg.predict_time
  · rw [if_pos ht, if_pos h2]
    have hne : cfg.dt ≠ 0 := hdt.ne'
    have harith : (cfg.predict_time - (t + cfg.dt)) / cfg.dt
        = (cfg.predict_time - t) / cfg.dt - 1 := by
      field_simp
      ring
    have hfl : ⌊(cfg.predict_time - (t + cfg.dt)) / cfg.dt⌋
        = ⌊(cfg.predict_time - t) / cfg.dt⌋ - 1 := by
      rw [harith]
      exact_mod_cast Int.floor_sub_int ((cfg.predict_time - t) / cfg.dt) 1
    have h0 : 0 ≤ ⌊(cfg.predict_time - (t + cfg.dt)) / cfg.dt⌋ :=
      Int.floor_nonneg.mpr (div_nonneg (by linarith) hdt.le)
    omega
  · rw [if_pos ht, if_neg h2]
    have h0 : ⌊(cfg.predict_time - t) / cfg.dt⌋ = 0 := by
      rw [Int.floor_eq_zero_iff, Set.mem_Ico]
      constructor
      · exact div_nonneg (by linarith) hdt.le
      · rw [div_lt_one hdt]
        linarith
    omega

theorem rowsOf_length (x : Flocking.M) : (Flocking.rowsOf x).length = 6 := rfl

theorem rowsOf_getLast (x : Flocking.M) : (Flocking.rowsOf x).getLast? = some (x 5) := rfl

theorem flocking_predictGo_length (ops : MathOps) (cfg : Config) (n : Fin 6)
    (v y : ℚ) (hdt : 0 < cfg.dt) :
    ∀ (fuel : ℕ) (x : Flocking.M) (t : ℚ),
      (Flocking.predictGo ops cfg n v y fuel x t).length = 6 * min fuel (iterCount cfg t) := by
  intro fuel
  induction fuel with
  | zero =>
    intro x t
    simp [Flocking.predictGo]
  | succ f ih =>
    intro x t
    simp only [Flocking.predictGo]
    by_cases ht : t ≤ cfg.predict_time
    · rw [if_pos ht, List.length_append, ih, rowsOf_length,
        iterCount_succ cfg t hdt ht, Nat.succ_min_succ]
      omega
    · rw [if_neg ht]
      simp [iterCount, ht]

theorem flocking_go_getLast (ops : MathOps) (cfg : Config) (n : Fin 6) (v y : ℚ)
    (hn : n ≠ 5) :
    ∀ (fuel : ℕ) (x : Flocking.M) (t : ℚ),
      (Flocking.rowsOf x ++ Flocking.predictGo ops cfg n v y fuel x t).getLast?
        = some (x 5) := by
  intro fuel
  induction fuel with
  | zero =>
    intro x t
    simp only [Flocking.predictGo, List.append_nil]
    exact rowsOf_getLast x
  | succ f ih =>
    intro x t
    simp only [Flocking.predictGo]
    by_cases ht : t ≤ cfg.predict_time
    · rw [if_pos ht]
      have hx5 : Flocking.motion ops x n (v, y) cfg.dt 5 = x 5 := by
        unfold Flocking.motion
        exact Function.update_noteq (Ne.symm hn) _ x
      rw [List.getLast?_append, ih (Flocking.motion ops x n (v, y) cfg.dt) (t + cfg.dt)]
      simp [hx5]
    · rw [if_neg ht, List.append_nil]
      exact rowsOf_getLast x

theorem flocking_searchStep_stall (ops : MathOps) (cfg : Config) (x : Flocking.M)
    (goal : ℚ × ℚ) (ob : List (ℚ × ℚ)) (n : Fin 6) (st st' : Flocking.SearchSt)
    (c : Fin 6 × ℚ × ℚ)
    (hstep : Flocking.searchStep ops cfg x goal ob st c = some st')
    (hP : StallInv cfg x n (st.best_u n)) : StallInv cfg x n (st'.best_u n) := by
  unfold Flocking.searchStep at hstep
  dsimp only at hstep
  cases hfc : Flocking.finalCost ops cfg goal ob
      (Flocking.predict_trajectory ops cfg x c.1 c.2.1 c.2.2) with
  | none =>
    rw [hfc] at hstep
    simp at hstep
  | some fc =>
    rw [hfc] at hstep
    dsimp only at hstep
    by_cases hgeb : st.min_cost.geb fc = true
    · rw [if_pos hgeb] at hstep
      have hst' := (Option.some.inj hstep).symm
      subst hst'
      by_cases hcn : c.1 = n
      · subst hcn
        simp only [Function.update_same]
        by_cases hcond : |c.2.1| < cfg.robot_stuck_flag_cons ∧
            |(x c.1).v| < cfg.robot_stuck_flag_cons
        · rw [if_pos hcond]
          exact Or.inr fun _ _ => rfl
        · rw [if_neg hcond]
          exact Or.inr fun h1 h2 => absurd ⟨h1, h2⟩ hcond
      · simp only [Function.update_noteq (fun h => hcn h.symm)]
        exact hP
    · rw [if_neg hgeb] at hstep
      rw [← Option.some.inj hstep]
      exact hP

theorem mem_obstacleDists {ops : MathOps} {pts ob : List (ℚ × ℚ)} {d : ℚ} :
    d ∈ obstacleDists ops pts ob ↔
      ∃ o ∈ ob, ∃ p ∈ pts, ops.hypot (p.1 - o.1) (p.2 - o.2) = d := by
  simp [obstacleDists]

theorem obstacleDists_ne_nil (ops : MathOps) {pts ob : List (ℚ × ℚ)}
    (hp : pts ≠ []) (ho : ob ≠ []) : obstacleDists ops pts ob ≠ [] := by
  cases ob with
  | nil => exact absurd rfl ho
  | cons o obs =>
    cases pts with
    | nil => exact absurd rfl hp
    | cons p ps => simp [obstacleDists]

theorem obstacleCore_inf_iff (ops : MathOps) (pts ob : List (ℚ × ℚ)) (radius : ℚ) :
    obstacleCore ops pts ob radius = .inf ↔
      ∃ p ∈ pts, ∃ o ∈ ob, ops.hypot (p.1 - o.1) (p.2 - o.2) ≤ radius := by
  unfold obstacleCore
  by_cases h : (obstacleDists ops pts ob).any (fun d => decide (d ≤ radius)) = true
  · rw [if_pos h]
    constructor
    · intro _
      obtain ⟨d, hd, hle⟩ := List.any_eq_true.mp h
      rw [decide_eq_true_eq] at hle
      obtain ⟨o, ho, p, hp, hEq⟩ := mem_obstacleDists.mp hd
      exact ⟨p, hp, o, ho, hEq ▸ hle⟩
    · intro _
      rfl
  · rw [if_neg h]
    constructor
    · intro hEq
      cases hdists : obstacleDists ops pts ob with
      | nil => rw [hdists] at hEq; simp at hEq
      | cons d ds => rw [hdists] at hEq; simp at hEq
    · intro hex
      exfalso
      apply h
      obtain ⟨p, hp, o, ho, hle⟩ := hex
      exact List.any_eq_true.mpr
        ⟨_, mem_obstacleDists.mpr ⟨o, ho, p, hp, rfl⟩, decide_eq_true hle⟩

theorem obstacleCore_val (ops : MathOps) (pts ob : List (ℚ × ℚ)) (radius : ℚ)
    (h : ¬ ∃ p ∈ pts, ∃ o ∈ ob, ops.hypot (p.1 - o.1) (p.2 - o.2) ≤ radius)
    (hne : obstacleDists ops pts ob ≠ []) :
    ∃ m, m ∈ obstacleDists ops pts ob ∧ (∀ d ∈ obstacleDists ops pts ob, m ≤ d) ∧
      obstacleCore ops pts ob radius = .val (1 / m) := by
  have hany : ¬ (obstacleDists ops pts ob).any (fun d => decide (d ≤ radius)) = true := by
    intro hc
    obtain ⟨d, hd, hle⟩ := List.any_eq_true.mp hc
    rw [decide_eq_true_eq] at hle
    obtain ⟨o, ho, p, hp, hEq⟩ := mem_obstacleDists.mp hd
    exact h ⟨p, hp, o, ho, hEq ▸ hle⟩
  cases hdists : obstacleDists ops pts ob with
  | nil => exact absurd hdists hne
  | cons d ds =>
    refine ⟨ds.foldl min d, ?_, ?_, ?_⟩
    · exact foldl_min_mem ds d
    · exact fun q hq => foldl_min_le ds d q hq
    · unfold obstacleCore
      rw [if_neg hany, hdists]

theorem rowsPos_ne_nil {t : List (List ℚ)} {p : List (ℚ × ℚ)}
    (h : Dwa3d.rowsPos t = some p) (ht : t ≠ []) : p ≠ [] := by
  cases t with
  | nil => exact absurd rfl ht
  | cons r rs =>
    unfold Dwa3d.rowsPos at h
    rcases ha : r.get? 0 with _ | a <;> rw [ha] at h <;>
      rcases hb : r.get? 1 with _ | b <;> rw [hb] at h <;>
        rcases hr : Dwa3d.rowsPos rs with _ | rest <;> rw [hr] at h <;>
          simp at h
    exact h ▸ List.cons_ne_nil (a, b) rest

/-! ### Claim theorems -/

set_option maxRecDepth 100000 in
/-- Claim C1.  The dwa_3d motion model does apply the unicycle update
(heading `+= ω·dt` at index 3, then the position update, and it overwrites
the velocity fields, writing the linear velocity to index 4), but the cost
evaluators do NOT read back the fields the model wrote: at this concrete
one-tick trajectory the speed term (`trajectory[-1, 3]`) reads back the
heading value `0` instead of the written velocity `1/2`, and the
goal-heading read (`trajectory[-1, 2]`) yields the constant z value `1`
instead of the heading `0`; so the evaluated cost differs from the cost of
the written velocity field. -/
theorem C1_dwa3d_evaluators_read_wrong_fields :
    Dwa3d.motion opsT x7z [1/2, 0, 0] 1 = some [1/2, 0, 1, 0, 1/2, 0, 0]
    ∧ [(1:ℚ)/2, 0, 1, 0, 1/2, 0, 0].get? 4 = some (1/2)
    ∧ [(1:ℚ)/2, 0, 1, 0, 1/2, 0, 0].get? 3 = some 0
    ∧ [(1:ℚ)/2, 0, 1, 0, 1/2, 0, 0].get? 2 = some 1
    ∧ Dwa3d.finalCost opsT cfgA ((0 : ℚ), (0 : ℚ)) obFar
        [x7z, [1/2, 0, 1, 0, 1/2, 0, 0]] = some (Cost.fin (4/5 + 2/199))
    ∧ Cost.fin (4/5 + 2/199) ≠ Cost.fin ((4/5 - 1/2) + 2/199) := by
  with_unfolding_all decide

/-- Claim C2.  A control step of dwa_3d cannot complete: its motion model
reads the command entry `u[2]`, so every call with the 2-element command
`[v, y]` built by `predict_trajectory` (and by `main`) raises an
IndexError — embedded here as `none` — for every state vector, every
command and every time step. -/
theorem C2_motion_reads_third_command_entry (ops : MathOps) (x : List ℚ)
    (v y dt : ℚ) : Dwa3d.motion ops x [v, y] dt = none :=
  motion_pair_none ops x v y dt

/-- Claim C3.  For every non-empty trajectory whose rows have the two
position columns and every non-empty obstacle set, the dwa_3d obstacle
cost is `inf` exactly when some sample is within `robot_radius`
(boundary inclusive) of some obstacle point, and otherwise it is the
reciprocal of the minimum sample-to-obstacle distance. -/
theorem C3_obstacle_cost_inf_iff_collision (ops : MathOps)
    (traj : List (List ℚ)) (ob : List (ℚ × ℚ)) (cfg : Config)
    (pts : List (ℚ × ℚ)) (hpts : Dwa3d.rowsPos traj = some pts)
    (htraj : traj ≠ []) (hob : ob ≠ []) :
    (Dwa3d.calc_obstacle_cost ops traj ob cfg = some .inf ↔
      ∃ p ∈ pts, ∃ o ∈ ob, ops.hypot (p.1 - o.1) (p.2 - o.2) ≤ cfg.robot_radius)
    ∧ ((¬ ∃ p ∈ pts, ∃ o ∈ ob, ops.hypot (p.1 - o.1) (p.2 - o.2) ≤ cfg.robot_radius) →
        ∃ m, m ∈ obstacleDists ops pts ob ∧ (∀ d ∈ obstacleDists ops pts ob, m ≤ d) ∧
          Dwa3d.calc_obstacle_cost ops traj ob cfg = some (.val (1 / m))) := by
  have hcalc : Dwa3d.calc_obstacle_cost ops traj ob cfg
      = some (obstacleCore ops pts ob cfg.robot_radius) := by
    unfold Dwa3d.calc_obstacle_cost
    rw [hpts]
    rfl
  constructor
  · rw [hcalc]
    constructor
    · intro h
      exact (obstacleCore_inf_iff ops pts ob cfg.robot_radius).mp (Option.some.inj h)
    · intro h
      rw [(obstacleCore_inf_iff ops pts ob cfg.robot_radius).mpr h]
  · intro h
    obtain ⟨m, hm, hmin, hval⟩ := obstacleCore_val ops pts ob cfg.robot_radius h
      (obstacleDists_ne_nil ops (rowsPos_ne_nil hpts htraj) hob)
    exact ⟨m, hm, hmin, by rw [hcalc, hval]⟩

/-- Witness for C3 at a concrete input: one sample at the origin, one
obstacle at `(3, 4)` (taxicab distance 7 under `opsT`), radius `1/2`. -/
theorem C3_obstacle_cost_inf_iff_collision_witness :
    Dwa3d.rowsPos [x7z] = some [((0 : ℚ), (0 : ℚ))] ∧ ([x7z] : List (List ℚ)) ≠ []
    ∧ ([((3 : ℚ), (4 : ℚ))] : List (ℚ × ℚ)) ≠ []
    ∧ ((Dwa3d.calc_obstacle_cost opsT [x7z] [(3, 4)] cfgA = some .inf ↔
          ∃ p ∈ [((0 : ℚ), (0 : ℚ))], ∃ o ∈ [((3 : ℚ), (4 : ℚ))],
            opsT.hypot (p.1 - o.1) (p.2 - o.2) ≤ cfgA.robot_radius)
        ∧ ((¬ ∃ p ∈ [((0 : ℚ), (0 : ℚ))], ∃ o ∈ [((3 : ℚ), (4 : ℚ))],
              opsT.hypot (p.1 - o.1) (p.2 - o.2) ≤ cfgA.robot_radius) →
            ∃ m, m ∈ obstacleDists opsT [((0 : ℚ), (0 : ℚ))] [((3 : ℚ), (4 : ℚ))]
              ∧ (∀ d ∈ obstacleDists opsT [((0 : ℚ), (0 : ℚ))] [((3 : ℚ), (4 : ℚ))], m ≤ d)
              ∧ Dwa3d.calc_obstacle_cost opsT [x7z] [(3, 4)] cfgA = some (.val (1 / m)))) :=
  ⟨by with_unfolding_all decide, by with_unfolding_all decide, by with_unfolding_all decide,
    C3_obstacle_cost_inf_iff_collision opsT [x7z] [(3, 4)] cfgA [((0 : ℚ), (0 : ℚ))]
      (by with_unfolding_all decide) (by with_unfolding_all decide)
      (by with_unfolding_all decide)⟩

set_option maxRecDepth 100000 in
/-- Claim C4 counterexample.  At this input the window is non-empty (one
candidate `(0, 0)` is enumerated) and the obstacle sits on the robot's
current position, so every candidate trajectory is a predicted collision
(every trajectory's first sample is the current state); the claim demands
the default `((0,0), [x])`, but the dwa_3d search raises inside the motion
model (`none`) instead of returning it. -/
theorem C4_counterexample :
    (∃ o ∈ obAt0, opsT.hypot ((0 : ℚ) - o.1) ((0 : ℚ) - o.2) ≤ cfgA.robot_radius)
    ∧ Dwa3d.gridCands cfgA ((0 : ℚ), 1/2, 0, 1/2) ≠ []
    ∧ Dwa3d.calc_control_and_trajectory opsT cfgA x7z ((0 : ℚ), 1/2, 0, 1/2)
        ((10 : ℚ), (0 : ℚ)) obAt0 = none
    ∧ (none : Option ((ℚ × ℚ) × List (List ℚ))) ≠ some (((0 : ℚ), (0 : ℚ)), [x7z]) := by
  with_unfolding_all decide

/-- Claim C4 (amended).  With positive resolutions, a positive time step
and a non-negative horizon: an empty window in either dimension enumerates
zero candidates and the search returns the zero command and the
single-state trajectory; but whenever at least one candidate is enumerated
the dwa_3d search raises in the motion model and returns nothing — so the
all-collision case never returns the default. -/
theorem C4_amended_empty_window_default (ops : MathOps) (cfg : Config)
    (x : List ℚ) (dw : ℚ × ℚ × ℚ × ℚ) (goal : ℚ × ℚ) (ob : List (ℚ × ℚ))
    (hv : 0 < cfg.v_resolution) (hy : 0 < cfg.yaw_rate_resolution)
    (hdt : 0 < cfg.dt) (hT : 0 ≤ cfg.predict_time) :
    (dw.2.1 ≤ dw.1 ∨ dw.2.2.2 ≤ dw.2.2.1 →
      Dwa3d.calc_control_and_trajectory ops cfg x dw goal ob = some ((0, 0), [x]))
    ∧ (Dwa3d.gridCands cfg dw ≠ [] →
      Dwa3d.calc_control_and_trajectory ops cfg x dw goal ob = none) := by
  constructor
  · intro h
    exact calc3d_empty_default ops cfg x dw goal ob
      (gridCands_empty_of_window cfg dw hv hy h)
  · intro h
    exact calc3d_nonempty_none ops cfg x dw goal ob hdt hT h

set_option maxRecDepth 100000 in
/-- Witness for the amended C4 at a concrete empty window `(1, 0, 0, 1)`. -/
theorem C4_amended_empty_window_default_witness :
    (0 : ℚ) < cfgA.v_resolution ∧ (0 : ℚ) < cfgA.yaw_rate_resolution
    ∧ (0 : ℚ) < cfgA.dt ∧ (0 : ℚ) ≤ cfgA.predict_time
    ∧ Dwa3d.calc_control_and_trajectory opsT cfgA x7z ((1 : ℚ), 0, 0, 1)
        ((10 : ℚ), (0 : ℚ)) obAt0 = some (((0 : ℚ), (0 : ℚ)), [x7z]) :=
  ⟨by with_unfolding_all decide, by with_unfolding_all decide,
   by with_unfolding_all decide, by with_unfolding_all decide,
   (C4_amended_empty_window_default opsT cfgA x7z ((1 : ℚ), 0, 0, 1)
      ((10 : ℚ), (0 : ℚ)) obAt0 (by with_unfolding_all decide)
      (by with_unfolding_all decide) (by with_unfolding_all decide)
      (by with_unfolding_all decide)).1 (Or.inl (by with_unfolding_all decide))⟩

set_option maxRecDepth 100000 in
/-- Claim C7 counterexample.  With an empty window the dwa_3d search
returns the initialised default `(0, 0)`; the returned linear velocity `0`
and the current velocity `x[4] = 0` are both below the threshold
`1/10000`, yet the returned yaw rate is `0`, not
`-max_delta_yaw_rate = -3/10`. -/
theorem C7_counterexample :
    Dwa3d.calc_control_and_trajectory opsT cfgA x7z ((1 : ℚ), 0, 0, 1)
      ((10 : ℚ), (0 : ℚ)) obFar = some (((0 : ℚ), (0 : ℚ)), [x7z])
    ∧ x7z.get? 4 = some 0
    ∧ |(0 : ℚ)| < cfgA.robot_stuck_flag_cons
    ∧ ((0 : ℚ), (0 : ℚ)).2 ≠ -cfgA.max_delta_yaw_rate := by
  with_unfolding_all decide

/-- Claim C7 (amended), proved on the flocking search, which contains the
same per-candidate anti-stall logic (in dwa_3d the override is unreachable
because candidate simulation raises, cf. C2): whenever agent `n`'s
returned command differs from the initialised default `(0, 0)` — i.e. at
least one candidate was selected for `n` — and both the returned linear
velocity and the agent's current linear velocity are below the threshold,
the returned yaw rate equals the negated max delta yaw rate. -/
theorem C7_amended_anti_stall (ops : MathOps) (cfg : Config) (x : Flocking.M)
    (dw : Fin 6 → ℚ × ℚ × ℚ × ℚ) (goal : ℚ × ℚ) (ob : List (ℚ × ℚ))
    (n : Fin 6) (u : ℚ × ℚ)
    (hu : (Flocking.calc_control_and_trajectory ops cfg x dw goal ob).map
      (fun r => r.1 n) = some u)
    (hne : u ≠ (0, 0))
    (hv : |u.1| < cfg.robot_stuck_flag_cons)
    (hcur : |(x n).v| < cfg.robot_stuck_flag_cons) :
    u.2 = -cfg.max_delta_yaw_rate := by
  unfold Flocking.calc_control_and_trajectory at hu
  cases hst : (Flocking.gridCands cfg dw).foldlM
      (Flocking.searchStep ops cfg x goal ob)
      ⟨Cost.inf, fun _ => (0, 0), Flocking.rowsOf x⟩ with
  | none => rw [hst] at hu; simp at hu
  | some st =>
    rw [hst] at hu
    have hueq : st.best_u n = u := Option.some.inj hu
    have hinv : StallInv cfg x n (st.best_u n) :=
      foldlM_option_inv (Flocking.searchStep ops cfg x goal ob)
        (fun s => StallInv cfg x n (s.best_u n))
        (fun s a s' h hp => flocking_searchStep_stall ops cfg x goal ob n s s' a h hp)
        (Flocking.gridCands cfg dw) _ st hst (Or.inl rfl)
    rcases hinv with h0 | himp
    · exact absurd (hueq.symm.trans h0) hne
    · rw [hueq] at himp
      exact himp hv hcur

set_option maxRecDepth 1000000 in
/-- Witness for the amended C7: six stationary agents, each with exactly
one admissible candidate `(0, -1/5)`; every agent's command is selected
and overridden to `(0, -3/10)` by the anti-stall rule. -/
theorem C7_amended_anti_stall_witness :
    ((Flocking.calc_control_and_trajectory opsT cfgC xStall
        (Flocking.calc_dynamic_window xStall cfgC) ((0 : ℚ), (0 : ℚ)) obMid).map
      (fun r => r.1 0)) = some ((0 : ℚ), -(3/10 : ℚ))
    ∧ ((0 : ℚ), -(3/10 : ℚ)) ≠ ((0 : ℚ), (0 : ℚ))
    ∧ |((0 : ℚ), -(3/10 : ℚ)).1| < cfgC.robot_stuck_flag_cons
    ∧ |(xStall 0).v| < cfgC.robot_stuck_flag_cons
    ∧ ((0 : ℚ), -(3/10 : ℚ)).2 = -cfgC.max_delta_yaw_rate :=
  ⟨by with_unfolding_all decide, by with_unfolding_all decide,
   by with_unfolding_all decide, by with_unfolding_all decide,
   C7_amended_anti_stall opsT cfgC xStall (Flocking.calc_dynamic_window xStall cfgC)
     ((0 : ℚ), (0 : ℚ)) obMid 0 ((0 : ℚ), -(3/10 : ℚ))
     (by with_unfolding_all decide) (by with_unfolding_all decide)
     (by with_unfolding_all decide) (by with_unfolding_all decide)⟩

set_option maxRecDepth 1000000 in
/-- Claim C5 counterexample.  Six agents, one admissible candidate
`(3/10, -3/10)` each, one distant obstacle and one goal.  Agent 1's
candidate is evaluated against the *shared* running minimum cost already
set by agent 0 (agent 1's cost is larger because its simulated row comes
closer to the obstacle, while its own goal/speed terms are read from agent
5's static row), so agent 1 keeps the default `(0, 0)`; the single-agent
algorithm of the spec run on agent 1's own state alone selects its sole
admissible candidate `(3/10, -3/10)`. -/
theorem C5_counterexample :
    ((Flocking.dwa_control opsT cfgC xNear ((0 : ℚ), (0 : ℚ)) obFar).map
      (fun r => r.1 1)) = some ((0 : ℚ), (0 : ℚ))
    ∧ (SpecDWA.search opsT cfgC (xNear 1) ((0 : ℚ), (0 : ℚ)) obFar).1
        = ((3/10 : ℚ), -(3/10 : ℚ))
    ∧ ((0 : ℚ), (0 : ℚ)) ≠ ((3/10 : ℚ), -(3/10 : ℚ)) := by
  refine ⟨by with_unfolding_all decide, by with_unfolding_all decide,
    by with_unfolding_all decide⟩

/-- Claim C5 (amended).  For every agent `n ≠ 5`, the final row of the
stacked candidate trajectory — the row that the goal-heading cost
(`trajectory[-1, 2]` etc.) and the speed cost (`trajectory[-1, 3]`) read —
is agent 5's untouched current state, not a state of agent `n`'s simulated
trajectory; together with the shared running minimum cost this makes agent
`n`'s selection depend on the other agents (see the counterexample). -/
theorem C5_amended_last_row_is_agent5 (ops : MathOps) (cfg : Config)
    (x : Flocking.M) (n : Fin 6) (v y : ℚ) (hn : n ≠ 5) :
    (Flocking.predict_trajectory ops cfg x n v y).getLast? = some (x 5) := by
  unfold Flocking.predict_trajectory
  exact flocking_go_getLast ops cfg n v y hn _ x 0

set_option maxRecDepth 1000000 in
/-- Witness for the amended C5 at agent 1 of the counterexample scenario. -/
theorem C5_amended_last_row_is_agent5_witness :
    ((1 : Fin 6) ≠ 5)
    ∧ (Flocking.predict_trajectory opsT cfgC xNear 1 (3/10) (-(3/10))).getLast?
        = some (xNear 5) :=
  ⟨by decide,
   C5_amended_last_row_is_agent5 opsT cfgC xNear 1 (3/10) (-(3/10)) (by decide)⟩

/-- Claim C6.  The goal-1 `while True:` loop of the flocking `main` never
exits: the reached-check's `break` leaves only the inner `for` loop and
the `while` has no exit, so for every fuel bound and every state — in
particular states in which some agent has already reached the first
goal — the run never advances to goal 2 or goal 3. -/
theorem C6_goal1_loop_never_exits (ops : MathOps) (cfg : Config)
    (goal1 : ℚ × ℚ) (ob : List (ℚ × ℚ)) :
    ∀ (fuel : ℕ) (x : Flocking.M),
      Flocking.runGoal1 ops cfg goal1 ob fuel x = none := by
  intro fuel
  induction fuel with
  | zero => intro x; rfl
  | succ f ih =>
    intro x
    unfold Flocking.runGoal1
    cases Flocking.goal1Iter ops cfg goal1 ob x with
    | none => rfl
    | some x' => exact ih x'

set_option maxRecDepth 100000 in
/-- Claim C8 counterexample.  `cfgA` has consistent static bounds and
non-negative acceleration limits, yet for the state with current velocity
10 the window is empty: `v_min = 49/5 > v_max = 4/5`. -/
theorem C8_counterexample :
    cfgA.min_speed ≤ cfgA.max_speed ∧ (0 : ℚ) ≤ cfgA.max_yaw_rate
    ∧ (0 : ℚ) ≤ cfgA.max_accel ∧ (0 : ℚ) ≤ cfgA.max_delta_yaw_rate
    ∧ (0 : ℚ) ≤ cfgA.dt
    ∧ Dwa3d.calc_dynamic_window xFast cfgA
        = some ((49/5 : ℚ), 4/5, -(3/10), 3/10)
    ∧ ¬ ((49/5 : ℚ) ≤ 4/5) := by
  with_unfolding_all decide

/-- Claim C8 (amended).  The window returned by dwa_3d's
`calc_dynamic_window` satisfies `v_min ≤ v_max` and `yaw_min ≤ yaw_max`
whenever the Config bounds are consistent, the acceleration limits and
time step are non-negative, AND the state's current velocities lie within
the static bounds widened by one acceleration step. -/
theorem C8_amended_window_nonempty (x : List ℚ) (cfg : Config) (v w a b c d : ℚ)
    (hcalc : Dwa3d.calc_dynamic_window x cfg = some (a, b, c, d))
    (hv4 : x.get? 4 = some v) (hv5 : x.get? 5 = some w)
    (h1 : cfg.min_speed ≤ cfg.max_speed) (h2 : 0 ≤ cfg.max_yaw_rate)
    (h3 : 0 ≤ cfg.max_accel) (h4 : 0 ≤ cfg.max_delta_yaw_rate) (h5 : 0 ≤ cfg.dt)
    (h6 : cfg.min_speed - cfg.max_accel * cfg.dt ≤ v)
    (h7 : v ≤ cfg.max_speed + cfg.max_accel * cfg.dt)
    (h8 : -cfg.max_yaw_rate - cfg.max_delta_yaw_rate * cfg.dt ≤ w)
    (h9 : w ≤ cfg.max_yaw_rate + cfg.max_delta_yaw_rate * cfg.dt) :
    a ≤ b ∧ c ≤ d := by
  unfold Dwa3d.calc_dynamic_window at hcalc
  rw [hv4, hv5] at hcalc
  have h := Option.some.inj hcalc
  simp only [Prod.mk.injEq] at h
  obtain ⟨ha, hb, hc, hd⟩ := h
  subst ha hb hc hd
  have hadt : 0 ≤ cfg.max_accel * cfg.dt := mul_nonneg h3 h5
  have hddt : 0 ≤ cfg.max_delta_yaw_rate * cfg.dt := mul_nonneg h4 h5
  constructor
  · apply le_min
    · exact max_le h1 (by linarith)
    · exact max_le (by linarith) (by linarith)
  · apply le_min
    · exact max_le (by linarith) (by linarith)
    · exact max_le (by linarith) (by linarith)

set_option maxRecDepth 100000 in
/-- Witness for the amended C8 at the all-zero state under `cfgA`. -/
theorem C8_amended_window_nonempty_witness :
    Dwa3d.calc_dynamic_window x7z cfgA = some (-(1/5 : ℚ), 1/5, -(3/10), 3/10)
    ∧ x7z.get? 4 = some 0 ∧ x7z.get? 5 = some 0
    ∧ cfgA.min_speed ≤ cfgA.max_speed ∧ (0 : ℚ) ≤ cfgA.max_yaw_rate
    ∧ (0 : ℚ) ≤ cfgA.max_accel ∧ (0 : ℚ) ≤ cfgA.max_delta_yaw_rate
    ∧ (0 : ℚ) ≤ cfgA.dt
    ∧ (-(1/5 : ℚ) ≤ 1/5 ∧ -(3/10 : ℚ) ≤ 3/10) :=
  ⟨by with_unfolding_all decide, by with_unfolding_all decide,
   by with_unfolding_all decide, by with_unfolding_all decide,
   by with_unfolding_all decide, by with_unfolding_all decide,
   by with_unfolding_all decide, by with_unfolding_all decide,
   C8_amended_window_nonempty x7z cfgA 0 0 (-(1/5)) (1/5) (-(3/10)) (3/10)
     (by with_unfolding_all decide) (by with_unfolding_all decide)
     (by with_unfolding_all decide) (by with_unfolding_all decide)
     (by with_unfolding_all decide) (by with_unfolding_all decide)
     (by with_unfolding_all decide) (by with_unfolding_all decide)
     (by with_unfolding_all decide) (by with_unfolding_all decide)
     (by with_unfolding_all decide) (by with_unfolding_all decide)⟩

set_option maxRecDepth 100000 in
/-- Claim C9 counterexample.  With `predict_time = dt = 1` the loop body
runs for `time = 0` and `time = 1` (the guard is `<=`), so the flocking
simulator returns 3 stacked 6-row samples (18 rows), not
`ceil(predict_time/dt) + 1 = 2` samples (12 rows). -/
theorem C9_counterexample :
    (Flocking.predict_trajectory opsT cfgB xFz 0 0 0).length = 18
    ∧ 6 * (Int.toNat ⌈cfgB.predict_time / cfgB.dt⌉ + 1) = 12
    ∧ (18 : ℕ) ≠ 12 := by
  with_unfolding_all decide

/-- Claim C9 (amended).  For a positive time step and non-negative
horizon, the simulated trajectory consists of exactly
`floor(predict_time/dt) + 2` samples — one more than `ceil + 1` whenever
`dt` divides `predict_time` exactly — the first of which is the initial
state (each flocking sample being one stacked 6-row block). -/
theorem C9_amended_sample_count (ops : MathOps) (cfg : Config) (x : Flocking.M)
    (n : Fin 6) (v y : ℚ) (hdt : 0 < cfg.dt) (hT : 0 ≤ cfg.predict_time) :
    (Flocking.predict_trajectory ops cfg x n v y).length
      = 6 * ((⌊cfg.predict_time / cfg.dt⌋).toNat + 2)
    ∧ (Flocking.predict_trajectory ops cfg x n v y).take 6 = Flocking.rowsOf x := by
  constructor
  · unfold Flocking.predict_trajectory
    rw [List.length_append, rowsOf_length, flocking_predictGo_length ops cfg n v y hdt]
    have h0 : 0 ≤ ⌊cfg.predict_time / cfg.dt⌋ :=
      Int.floor_nonneg.mpr (div_nonneg hT hdt.le)
    have hic : iterCount cfg 0 = (⌊cfg.predict_time / cfg.dt⌋ + 1).toNat := by
      unfold iterCount
      rw [if_pos hT, sub_zero]
    rw [hic]
    omega
  · unfold Flocking.predict_trajectory
    rw [show (6 : ℕ) = (Flocking.rowsOf x).length from (rowsOf_length x).symm,
      List.take_left]

set_option maxRecDepth 100000 in
/-- Witness for the amended C9 under `cfgA` (horizon 0): 12 rows, first
block the initial rows. -/
theorem C9_amended_sample_count_witness :
    (0 : ℚ) < cfgA.dt ∧ (0 : ℚ) ≤ cfgA.predict_time
    ∧ ((Flocking.predict_trajectory opsT cfgA xFz 0 0 0).length
        = 6 * ((⌊cfgA.predict_time / cfgA.dt⌋).toNat + 2)
      ∧ (Flocking.predict_trajectory opsT cfgA xFz 0 0 0).take 6 = Flocking.rowsOf xFz) :=
  ⟨by with_unfolding_all decide, by with_unfolding_all decide,
   C9_amended_sample_count opsT cfgA xFz 0 0 0
     (by with_unfolding_all decide) (by with_unfolding_all decide)⟩

/-- Claim C10 counterexample.  With an empty obstacle set the obstacle
cost evaluation raises (`np.min` of an empty distance matrix, embedded as
`.err`); it does not yield a 0 contribution. -/
theorem C10_counterexample :
    Flocking.calc_obstacle_cost opsT [⟨0, 0, 0, 0, 0⟩] [] cfgA = .err
    ∧ ObCost.err ≠ ObCost.val 0 := by
  with_unfolding_all decide

/-- Claim C10 (amended).  For every trajectory and configuration, the
obstacle cost on an empty obstacle set is the raised-exception outcome,
never a finite contribution (the same code is `calc_obstacle_cost` in both
files). -/
theorem C10_amended_empty_obstacles_raise (ops : MathOps)
    (traj : List Flocking.AgState) (cfg : Config) :
    Flocking.calc_obstacle_cost ops traj [] cfg = .err := rfl
